import Mathlib

/-!
Shallow embedding of the task-orchestration service in `app.py`
(Flask endpoint `deploy`, background pipeline `process_task_background`,
adapters `generate_code_with_llm`, `create_github_repo`,
`submit_to_evaluation`, and the in-memory registry `processed_tasks`).

Python strings are modelled as `List Char`; Python string methods
(`strip`, `startswith`, `split`) are implemented with the same semantics
over `List Char`.  External I/O (the LLM call, every GitHub API call,
every HTTP POST to the evaluation URL) is modelled by oracle values
carried in environment records: a call that may raise an exception is an
`Except String` value whose `error` payload is `str(e)` of the raised
exception.
-/

/-- Python `str` modelled as a list of characters. -/
abbrev Str := List Char

/-- The backtick character, obtained from a string literal. -/
def backtick : Char := List.headD "`".data ' '

/-- Python `str.lstrip()`: drop leading whitespace characters. -/
def ltrim : Str → Str
  | [] => []
  | c :: cs => if c.isWhitespace then ltrim cs else c :: cs

/-- Python `str.rstrip()`: drop trailing whitespace characters. -/
def rtrim (s : Str) : Str := (ltrim s.reverse).reverse

/-- Python `str.strip()`: drop leading and trailing whitespace. -/
def strip (s : Str) : Str := ltrim (rtrim s)

/-- Python `str.startswith(p)`. -/
def startsWith : Str → Str → Bool
  | [], _ => true
  | _ :: _, [] => false
  | a :: ps, b :: ss => a == b && startsWith ps ss

/-- Worker for `splitOn`, with explicit fuel (one unit per scanned
position; `splitOn` supplies enough fuel to finish the scan).
Mirrors Python `str.split(sep)`: scan left to right, cut at each
non-overlapping occurrence of `sep`. -/
def splitOnFuel (sep : Str) : Nat → Str → Str → List Str
  | 0, xs, acc => [acc.reverse ++ xs]
  | _ + 1, [], acc => [acc.reverse]
  | fuel + 1, x :: rest, acc =>
    if startsWith sep (x :: rest) then
      acc.reverse :: splitOnFuel sep fuel (List.drop sep.length (x :: rest)) []
    else
      splitOnFuel sep fuel rest (x :: acc)

/-- Python `str.split(sep)` for a non-empty separator. -/
def splitOn (sep xs : Str) : List Str := splitOnFuel sep (xs.length + 1) xs []

/-- Does `sep` occur as a contiguous substring? (Used to state claims;
Python spells this `sep in s`.) -/
def containsSub (sep : Str) : Str → Bool
  | [] => startsWith sep []
  | x :: rest => startsWith sep (x :: rest) || containsSub sep rest

/-- Python list indexing `l[i]` (total here: the call sites are guarded
so the index always exists). -/
def pyGet (l : List Str) (i : Nat) : Str := l.getD i []

/-- The html code fence. -/
def fenceHtml : Str := "```html".data

/-- The plain code fence. -/
def fence : Str := "```".data

/-! ## Task registry (`processed_tasks`) -/

/-- The value stored in the `processed_tasks` dict for one task id. -/
inductive TaskStatus
  | processing
  | completed (repo_url pages_url : String)
  | failed (error : String)
deriving DecidableEq, Repr

/-- The `processed_tasks` dict.  Keys are `Option String` because
`data.get('task')` yields `None` when the field is absent, and Python
dicts accept `None` keys. -/
abbrev Registry := List (Option String × TaskStatus)

/-- Python `task_id in processed_tasks` / `processed_tasks[task_id]`. -/
def lookupReg (r : Registry) (k : Option String) : Option TaskStatus :=
  match r with
  | [] => none
  | (k', v) :: rest => if k' == k then some v else lookupReg rest k

/-- Python `processed_tasks[task_id] = v`. -/
def insertReg (r : Registry) (k : Option String) (v : TaskStatus) : Registry :=
  match r with
  | [] => [(k, v)]
  | (k', v') :: rest => if k' == k then (k, v) :: rest else (k', v') :: insertReg rest k v

/-! ## Request data and the `deploy` endpoint -/

/-- The parsed JSON body of a `POST /api/deploy` request.  Every field is
optional because the handler extracts each one with `data.get(...)`. -/
structure ReqData where
  email : Option String
  secret : Option String
  task : Option String
  round : Option Nat
  nonce : Option String
  brief : Option String
  checks : Option (List String)
  attachments : Option (List String)
  evaluation_url : Option String
deriving DecidableEq, Repr

/-- `verify_secret` in `app.py`: plain equality between the provided
secret and the configured `SECRET` (both may be `None`). -/
def verify_secret (SECRET provided_secret : Option String) : Bool :=
  provided_secret == SECRET

/-- The JSON responses the `deploy` handler can produce. -/
inductive Resp
  | invalidSecret
  | alreadyCompleted (repo_url pages_url : String)
  | stillProcessing
  | accepted (task : Option String)
deriving DecidableEq, Repr

/-- Outcome of one `deploy` call: the HTTP response, the registry after
the call, and the argument of the background thread if one was started. -/
structure DeployResult where
  resp : Resp
  tasks : Registry
  spawned : Option ReqData
deriving DecidableEq, Repr

/-- The `deploy` handler (lines 249-314 of `app.py`): verify the secret,
answer `completed`/`processing` resubmissions from the registry, and
otherwise (including when the stored status is `failed`!) mark the task
as processing and start a background thread. -/
def deploy (SECRET : Option String) (processed_tasks : Registry) (data : ReqData) : DeployResult :=
  let task_id := data.task
  if verify_secret SECRET data.secret = false then
    ⟨Resp.invalidSecret, processed_tasks, none⟩
  else
    match lookupReg processed_tasks task_id with
    | some (TaskStatus.completed r p) => ⟨Resp.alreadyCompleted r p, processed_tasks, none⟩
    | some TaskStatus.processing => ⟨Resp.stillProcessing, processed_tasks, none⟩
    | some (TaskStatus.failed _) =>
      ⟨Resp.accepted task_id, insertReg processed_tasks task_id TaskStatus.processing, some data⟩
    | none =>
      ⟨Resp.accepted task_id, insertReg processed_tasks task_id TaskStatus.processing, some data⟩

/-! ## Code generator adapter -/

/-- The markdown clean-up at the end of `generate_code_with_llm`:
`if code.startswith('¬```html'): code = code.split('¬```html')[1].split('¬```')[0].strip()`
and the analogous plain-fence branch (backticks shown with a guard in
this comment). -/
def cleanup_markdown (code : Str) : Str :=
  if startsWith fenceHtml code then
    strip (pyGet (splitOn fence (pyGet (splitOn fenceHtml code) 1)) 0)
  else if startsWith fence code then
    strip (pyGet (splitOn fence (pyGet (splitOn fence code) 1)) 0)
  else
    code

/-- `generate_code_with_llm`: the Gemini call is the oracle
`llmResponse` (`error e` models the call raising with `str(e) = e`,
`ok text` models `response.text`).  The prompt built from `brief`,
`checks` and `attachments` only feeds the external call, so it does not
influence the oracle's value. -/
def generate_code_with_llm (llmResponse : Except String Str)
    (brief : String) (checks : List String) (attachments : List String) : Except String Str :=
  match llmResponse with
  | Except.error e => Except.error e
  | Except.ok text => Except.ok (cleanup_markdown (strip text))

/-! ## Publisher adapter (`create_github_repo`) -/

/-- Equality of oracle outcomes is decidable (needed to evaluate
theorems about concrete environments). -/
instance {ε α : Type} [DecidableEq ε] [DecidableEq α] : DecidableEq (Except ε α) := fun a b =>
  match a, b with
  | Except.ok x, Except.ok y =>
    if h : x = y then isTrue (by rw [h]) else isFalse (by intro hc; cases hc; exact h rfl)
  | Except.ok _, Except.error _ => isFalse (by intro hc; cases hc)
  | Except.error _, Except.ok _ => isFalse (by intro hc; cases hc)
  | Except.error x, Except.error y =>
    if h : x = y then isTrue (by rw [h]) else isFalse (by intro hc; cases hc; exact h rfl)

/-- Oracle for every GitHub API call made by `create_github_repo`.  Each
field is the outcome of the corresponding call: `ok` for a normal
return, `error e` for the call raising an exception with `str(e) = e`.
`get_contents_*` return the file's sha on success; `get_commits_head`
returns `repo.get_commits()[0].sha`. -/
structure GithubEnv where
  get_user : Except String Unit
  get_repo : Except String Unit
  create_repo : Except String Unit
  get_contents_index : Except String String
  get_contents_readme : Except String String
  get_contents_license : Except String String
  update_index : Except String Unit
  update_readme : Except String Unit
  update_license : Except String Unit
  create_index : Except String Unit
  create_readme : Except String Unit
  create_license : Except String Unit
  create_pages : Except String Unit
  get_commits_head : Except String String
  html_url : String
deriving DecidableEq, Repr

/-- The value returned by `create_github_repo` on success
(`{'repo_url': ..., 'pages_url': ..., 'commit_sha': ...}`). -/
structure RepoData where
  repo_url : String
  pages_url : String
  commit_sha : String
deriving DecidableEq, Repr

/-- The inner update path of the file-push block: the existence probe
`repo.get_contents("index.html")`, then the three `update_file` calls,
each preceded by the `get_contents(...).sha` read used as its argument.
The first exception aborts the rest (it is caught by the bare `except:`
of the caller). -/
def update_path (env : GithubEnv) : Except String Unit :=
  match env.get_contents_index with
  | Except.error e => Except.error e
  | Except.ok _ =>
    match env.get_contents_index with
    | Except.error e => Except.error e
    | Except.ok _sha1 =>
      match env.update_index with
      | Except.error e => Except.error e
      | Except.ok _ =>
        match env.get_contents_readme with
        | Except.error e => Except.error e
        | Except.ok _sha2 =>
          match env.update_readme with
          | Except.error e => Except.error e
          | Except.ok _ =>
            match env.get_contents_license with
            | Except.error e => Except.error e
            | Except.ok _sha3 => env.update_license

/-- The create path of the file-push block: the three `create_file`
calls, first exception aborts the rest. -/
def create_path (env : GithubEnv) : Except String Unit :=
  match env.create_index with
  | Except.error e => Except.error e
  | Except.ok _ =>
    match env.create_readme with
    | Except.error e => Except.error e
    | Except.ok _ => env.create_license

/-- The whole file-push block of `create_github_repo` (lines 138-154):
try the update path, on any exception fall back to the create path, and
swallow any exception of that fallback in the outer
`except Exception as e: print("Error pushing files", ...)`.  Returns
whether "Files pushed successfully" was reached; the caller ignores the
result either way. -/
def push_files (env : GithubEnv) : Bool :=
  match update_path env with
  | Except.ok _ => true
  | Except.error _ =>
    match create_path env with
    | Except.ok _ => true
    | Except.error _ => false

/-- `try: repo = user.get_repo(...) except: repo = user.create_repo(...)`
(any exception of `get_repo` routes to `create_repo`; an exception of
`create_repo` propagates). -/
def repo_step (env : GithubEnv) : Except String Unit :=
  match env.get_repo with
  | Except.ok u => Except.ok u
  | Except.error _ => env.create_repo

/-- `try: repo.create_pages_site(...) except Exception: pass` — enabling
GitHub Pages is best-effort, failures are swallowed. -/
def pages_step (env : GithubEnv) : Bool :=
  match env.create_pages with
  | Except.ok _ => true
  | Except.error _ => false

/-- `create_github_repo(repo_name, html_code, brief)` (lines 73-175):
everything runs inside one outer `try`; any escaping exception `e` is
re-raised as `Exception("Repository creation failed: " + str(e))`.
The file-push block and the Pages call cannot raise (their failures are
swallowed); `time.sleep(10)` is a pure delay. -/
def create_github_repo (env : GithubEnv) (GITHUB_USERNAME repo_name : String)
    (html_code : Str) (brief : String) : Except String RepoData :=
  match env.get_user with
  | Except.error e => Except.error ("Repository creation failed: " ++ e)
  | Except.ok _ =>
    match repo_step env with
    | Except.error e => Except.error ("Repository creation failed: " ++ e)
    | Except.ok _ =>
      let _pushed := push_files env
      let _pages := pages_step env
      match env.get_commits_head with
      | Except.error e => Except.error ("Repository creation failed: " ++ e)
      | Except.ok sha =>
        Except.ok ⟨env.html_url,
                   "https://" ++ GITHUB_USERNAME ++ ".github.io/" ++ repo_name ++ "/",
                   sha⟩

/-! ## Delivery client (`submit_to_evaluation`) -/

/-- Outcome of one `requests.post(evaluation_url, ...)`: an HTTP status
code, or the call raising an exception. -/
inductive PostOutcome
  | status (code : Nat)
  | raised (msg : String)

/-- Observable actions of the delivery client: a sleep of a given number
of seconds, or a POST attempt (zero-based index). -/
inductive DEvent
  | sleepFor (seconds : Nat)
  | post (attempt : Nat)
deriving DecidableEq, Repr

/-- The payload built by `submit_to_evaluation`. -/
structure EvalPayload where
  task : String
  nonce : String
  repo_url : String
  pages_url : String
  commit_sha : String
deriving DecidableEq, Repr

/-- `for attempt in range(4): ...` of `submit_to_evaluation` over the
remaining attempt indices.  Each iteration computes
`wait_time = 2 ** attempt`, sleeps when `attempt > 0`, posts, returns
`True` on status 200, and on an exception returns `False` when
`attempt == 3`; falling out of the loop returns `False`. -/
def submit_attempts (respond : Nat → PostOutcome) : List Nat → List DEvent × Bool
  | [] => ([], false)
  | attempt :: rest =>
    let wait_time := 2 ^ attempt
    let pre : List DEvent := if attempt > 0 then [DEvent.sleepFor wait_time] else []
    match respond attempt with
    | PostOutcome.status code =>
      if code == 200 then (pre ++ [DEvent.post attempt], true)
      else
        let r := submit_attempts respond rest
        (pre ++ DEvent.post attempt :: r.1, r.2)
    | PostOutcome.raised _ =>
      if attempt == 3 then (pre ++ [DEvent.post attempt], false)
      else
        let r := submit_attempts respond rest
        (pre ++ DEvent.post attempt :: r.1, r.2)

/-- The trace of one `submit_to_evaluation` run. -/
structure DeliveryTrace where
  events : List DEvent
  result : Bool
deriving DecidableEq, Repr

/-- `submit_to_evaluation(evaluation_url, task_id, nonce, repo_data)`
(lines 177-210).  The evaluation endpoint's behaviour is the oracle
`respond` (indexed by attempt). -/
def submit_to_evaluation (respond : Nat → PostOutcome) (evaluation_url : String)
    (task_id nonce : String) (repo_data : RepoData) : DeliveryTrace :=
  let _payload : EvalPayload :=
    ⟨task_id, nonce, repo_data.repo_url, repo_data.pages_url, repo_data.commit_sha⟩
  let r := submit_attempts respond [0, 1, 2, 3]
  ⟨r.1, r.2⟩

/-- The sleeps of a delivery trace, in order. -/
def sleepsOf (evs : List DEvent) : List Nat :=
  evs.filterMap fun e => match e with
    | DEvent.sleepFor n => some n
    | DEvent.post _ => none

/-- The POST attempts of a delivery trace, in order. -/
def postsOf (evs : List DEvent) : List Nat :=
  evs.filterMap fun e => match e with
    | DEvent.sleepFor _ => none
    | DEvent.post i => some i

/-! ## Background pipeline (`process_task_background`) -/

/-- All oracles one background pipeline run consumes, plus the
`GITHUB_USERNAME` configuration. -/
structure PipelineEnv where
  llm : Except String Str
  github : GithubEnv
  deliverRespond : Nat → PostOutcome
  GITHUB_USERNAME : String

/-- Observable steps of one pipeline run. -/
inductive PEvent
  | generateCall
  | publishCall
  | deliver (e : DEvent)
  | writeCompleted
  | writeFailed
deriving DecidableEq, Repr

/-- How a `process_task_background` call ended: `finished` means the
function returned (normally or through its `except` handler); `crashed`
means the `except` handler itself raised `NameError` because `task_id`
was never bound (the body raised before `task_id = task_data['task']`
completed), so no registry write happened at all. -/
inductive POutcome
  | finished
  | crashed
deriving DecidableEq, Repr

/-- `process_task_background(task_data)` (lines 212-247).  Required-key
lookups `task_data['k']` raise `KeyError` whose `str` is `'k'` in
quotes; `task_data.get('attachments', [])` defaults.  Any exception
after `task_id` is bound is caught and recorded as
`{'status': 'failed', 'error': str(e)}`; an exception before that
(missing `'task'` key) makes the handler itself crash on the unbound
`task_id`.  Returns the new registry, how the call ended, and the trace
of pipeline steps. -/
def process_task_background (env : PipelineEnv) (tasks : Registry) (task_data : ReqData) :
    Registry × POutcome × List PEvent :=
  match task_data.task with
  | none => (tasks, POutcome.crashed, [])
  | some task_id =>
    match task_data.brief with
    | none => (insertReg tasks (some task_id) (TaskStatus.failed "'brief'"), POutcome.finished, [PEvent.writeFailed])
    | some brief =>
      match task_data.checks with
      | none => (insertReg tasks (some task_id) (TaskStatus.failed "'checks'"), POutcome.finished, [PEvent.writeFailed])
      | some checks =>
        let attachments := task_data.attachments.getD []
        match task_data.evaluation_url with
        | none => (insertReg tasks (some task_id) (TaskStatus.failed "'evaluation_url'"), POutcome.finished, [PEvent.writeFailed])
        | some evaluation_url =>
          match task_data.nonce with
          | none => (insertReg tasks (some task_id) (TaskStatus.failed "'nonce'"), POutcome.finished, [PEvent.writeFailed])
          | some nonce =>
            match generate_code_with_llm env.llm brief checks attachments with
            | Except.error e =>
              (insertReg tasks (some task_id) (TaskStatus.failed e), POutcome.finished,
               [PEvent.generateCall, PEvent.writeFailed])
            | Except.ok html_code =>
              match create_github_repo env.github env.GITHUB_USERNAME task_id html_code brief with
              | Except.error e =>
                (insertReg tasks (some task_id) (TaskStatus.failed e), POutcome.finished,
                 [PEvent.generateCall, PEvent.publishCall, PEvent.writeFailed])
              | Except.ok repo_data =>
                let dt := submit_to_evaluation env.deliverRespond evaluation_url task_id nonce repo_data
                (insertReg tasks (some task_id)
                   (TaskStatus.completed repo_data.repo_url repo_data.pages_url),
                 POutcome.finished,
                 [PEvent.generateCall, PEvent.publishCall]
                   ++ dt.events.map PEvent.deliver ++ [PEvent.writeCompleted])

/-! ## Interleaving model of two concurrent `deploy` calls (C1)

Flask serves requests on multiple threads; between the membership test
`task_id in processed_tasks` (line 279) and the write
`processed_tasks[task_id] = {'status': 'processing'}` (line 295) the
handler runs several statements (prints, dict reads) during which the
GIL can hand control to the other request thread.  The registry-relevant
part of one handler is therefore two atomic steps: the check, then the
write-and-spawn. -/

/-- Program counters of one in-flight `deploy` handler: `0` = about to
run the line-279 membership test; `1` = passed it (will mark processing
and spawn); `2` = returned. -/
def deployStep (task_id : Option String) (reg : Registry) (pc : Nat) (spawns : Nat) :
    Registry × Nat × Nat :=
  match pc with
  | 0 =>
    match lookupReg reg task_id with
    | some (TaskStatus.completed _ _) => (reg, 2, spawns)
    | some TaskStatus.processing => (reg, 2, spawns)
    | some (TaskStatus.failed _) => (reg, 1, spawns)
    | none => (reg, 1, spawns)
  | 1 => (insertReg reg task_id TaskStatus.processing, 2, spawns + 1)
  | _ => (reg, pc, spawns)

/-- Shared state of two concurrent submissions of the same task id. -/
structure RaceState where
  reg : Registry
  pc1 : Nat
  pc2 : Nat
  spawns : Nat
deriving DecidableEq, Repr

/-- Run one atomic step of thread 1 (`true`) or thread 2 (`false`). -/
def raceStep (task_id : Option String) (s : RaceState) (first : Bool) : RaceState :=
  if first then
    let r := deployStep task_id s.reg s.pc1 s.spawns
    ⟨r.1, r.2.1, s.pc2, r.2.2⟩
  else
    let r := deployStep task_id s.reg s.pc2 s.spawns
    ⟨r.1, s.pc1, r.2.1, r.2.2⟩

/-- Run both threads under a schedule (list of thread choices). -/
def raceRun (task_id : Option String) (s : RaceState) : List Bool → RaceState
  | [] => s
  | b :: rest => raceRun task_id (raceStep task_id s b) rest

/-! ## Helper lemmas about the string model -/

theorem fenceHtml_cons : fenceHtml = backtick :: "``html".data := by decide

theorem fence_cons : fence = backtick :: "``".data := by decide

theorem fence_snoc : fence = "``".data ++ [backtick] := by decide

theorem fenceHtml_split : fenceHtml = fence ++ "html".data := by decide

theorem startsWith_append_self (p b : Str) : startsWith p (p ++ b) = true := by
  induction p with
  | nil => rfl
  | cons a ps ih => simp [startsWith, ih]

theorem startsWith_cons_of_ne (a x : Char) (p s : Str) (h : a ≠ x) :
    startsWith (a :: p) (x :: s) = false := by
  have hb : (a == x) = false := beq_eq_false_iff_ne.mpr h
  simp [startsWith, hb]

theorem startsWith_mono (p : Str) :
    ∀ u d, startsWith p u = true → startsWith p (u ++ d) = true := by
  induction p with
  | nil => intro u d _; rfl
  | cons a ps ih =>
    intro u d h
    cases u with
    | nil => simp [startsWith] at h
    | cons x s =>
      simp only [startsWith, Bool.and_eq_true] at h
      simp only [List.cons_append, startsWith, Bool.and_eq_true]
      exact ⟨h.1, ih s d h.2⟩

theorem startsWith_append_cancel (p q : Str) :
    ∀ u, startsWith (p ++ q) u = true → startsWith p u = true := by
  induction p with
  | nil => intro u _; rfl
  | cons a ps ih =>
    intro u h
    cases u with
    | nil => simp [startsWith] at h
    | cons x s =>
      simp only [List.cons_append, startsWith, Bool.and_eq_true] at h
      simp only [startsWith, Bool.and_eq_true]
      exact ⟨h.1, ih s h.2⟩

theorem startsWith_append_both (p q u : Str) : startsWith (p ++ q) (p ++ u) = startsWith q u := by
  induction p with
  | nil => rfl
  | cons a ps ih => simp [startsWith, ih]

theorem containsSub_of_startsWith (sep u : Str) (h : startsWith sep u = true) :
    containsSub sep u = true := by
  cases u with
  | nil => simpa [containsSub] using h
  | cons x s => simp [containsSub, h]

theorem containsSub_append_left (sep : Str) :
    ∀ a d, containsSub sep a = true → containsSub sep (a ++ d) = true := by
  intro a
  induction a with
  | nil =>
    intro d h
    simp only [containsSub] at h
    exact containsSub_of_startsWith sep d (by simpa using startsWith_mono sep [] d h)
  | cons x s ih =>
    intro d h
    simp only [containsSub, Bool.or_eq_true] at h
    simp only [List.cons_append, containsSub, Bool.or_eq_true]
    rcases h with h | h
    · exact Or.inl (startsWith_mono sep (x :: s) d h)
    · exact Or.inr (ih d h)

theorem containsSub_free (tl : Str) :
    ∀ c d, (∀ x ∈ c, x ≠ backtick) →
      containsSub (backtick :: tl) (c ++ d) = containsSub (backtick :: tl) d := by
  intro c
  induction c with
  | nil => intro d _; rfl
  | cons x s ih =>
    intro d hc
    have hx : x ≠ backtick := hc x (List.mem_cons_self x s)
    have h1 : startsWith (backtick :: tl) (x :: (s ++ d)) = false :=
      startsWith_cons_of_ne backtick x tl (s ++ d) (Ne.symm hx)
    show (startsWith (backtick :: tl) (x :: (s ++ d)) || containsSub (backtick :: tl) (s ++ d))
        = containsSub (backtick :: tl) d
    rw [h1, Bool.false_or]
    exact ih d (fun y hy => hc y (List.mem_cons_of_mem x hy))

theorem ltrim_cons_no_ws (x : Char) (xs : Str) (h : x.isWhitespace = false) :
    ltrim (x :: xs) = x :: xs := by
  simp [ltrim, h]

theorem ltrim_suffix (v : Str) : ∃ z, v = z ++ ltrim v := by
  induction v with
  | nil => exact ⟨[], rfl⟩
  | cons x xs ih =>
    cases h : x.isWhitespace with
    | true =>
      rcases ih with ⟨z, hz⟩
      refine ⟨x :: z, ?_⟩
      have he : ltrim (x :: xs) = ltrim xs := by simp [ltrim, h]
      rw [he, List.cons_append]
      exact congrArg (List.cons x) hz
    | false =>
      exact ⟨[], by simp [ltrim, h]⟩

theorem containsSub_ltrim (sep t : Str) (h : containsSub sep (ltrim t) = true) :
    containsSub sep t = true := by
  induction t with
  | nil => simpa [ltrim] using h
  | cons x xs ih =>
    cases hw : x.isWhitespace with
    | true =>
      have h' : containsSub sep (ltrim xs) = true := by simpa [ltrim, hw] using h
      simp [containsSub, ih h']
    | false => simpa [ltrim, hw] using h

theorem containsSub_strip (sep t : Str) (h : containsSub sep t = false) :
    containsSub sep (strip t) = false := by
  cases hs : containsSub sep (strip t) with
  | false => rfl
  | true =>
    exfalso
    have h1 : containsSub sep (rtrim t) = true :=
      containsSub_ltrim sep (rtrim t) (by simpa [strip] using hs)
    rcases ltrim_suffix t.reverse with ⟨z, hz⟩
    have h2 : t = rtrim t ++ z.reverse := by
      have h4 := congrArg List.reverse hz
      simpa [rtrim, List.reverse_append] using h4
    have h3 : containsSub sep t = true := by
      rw [h2]; exact containsSub_append_left sep (rtrim t) z.reverse h1
    rw [h3] at h; cases h

theorem rtrim_append_last (w : Str) (x : Char) (h : x.isWhitespace = false) :
    rtrim (w ++ [x]) = w ++ [x] := by
  simp [rtrim, List.reverse_append, ltrim, h]

theorem strip_fenced (u c w : Str) (x y : Char)
    (hx : x.isWhitespace = false) (hy : y.isWhitespace = false) :
    strip ((x :: u) ++ c ++ (w ++ [y])) = (x :: u) ++ c ++ (w ++ [y]) := by
  have h1 : rtrim ((x :: u) ++ c ++ (w ++ [y])) = (x :: u) ++ c ++ (w ++ [y]) := by
    have h2 := rtrim_append_last (((x :: u) ++ c) ++ w) y hy
    simpa [List.append_assoc] using h2
  rw [strip, h1]
  exact ltrim_cons_no_ws x (u ++ c ++ (w ++ [y])) hx

theorem drop_len_append (p b : Str) : List.drop p.length (p ++ b) = b := by
  induction p with
  | nil => rfl
  | cons x ps ih => simp only [List.length_cons, List.cons_append, List.drop_succ_cons]; exact ih

theorem splitOnFuel_nil (sep : Str) (f : Nat) (acc : Str) :
    splitOnFuel sep f [] acc = [acc.reverse] := by
  cases f with
  | zero => simp [splitOnFuel]
  | succ n => rfl

theorem splitOnFuel_no_occ (sep : Str) :
    ∀ fuel xs acc, containsSub sep xs = false →
      splitOnFuel sep fuel xs acc = [acc.reverse ++ xs] := by
  intro fuel
  induction fuel with
  | zero => intro xs acc _; rfl
  | succ n ih =>
    intro xs acc h
    cases xs with
    | nil => simp [splitOnFuel]
    | cons x rest =>
      cases hsw : startsWith sep (x :: rest) with
      | true =>
        exfalso
        have hc : containsSub sep (x :: rest) = true := by simp [containsSub, hsw]
        rw [hc] at h; cases h
      | false =>
        have h2 : containsSub sep rest = false := by simpa [containsSub, hsw] using h
        simp [splitOnFuel, hsw, ih rest (x :: acc) h2]

theorem splitOnFuel_cons_true (sep : Str) (n : Nat) (x : Char) (rest acc : Str)
    (h : startsWith sep (x :: rest) = true) :
    splitOnFuel sep (n + 1) (x :: rest) acc =
      acc.reverse :: splitOnFuel sep n (List.drop sep.length (x :: rest)) [] := by
  simp [splitOnFuel, h]

theorem splitOnFuel_cons_false (sep : Str) (n : Nat) (x : Char) (rest acc : Str)
    (h : startsWith sep (x :: rest) = false) :
    splitOnFuel sep (n + 1) (x :: rest) acc = splitOnFuel sep n rest (x :: acc) := by
  simp [splitOnFuel, h]

theorem splitOnFuel_scan (tl : Str) :
    ∀ (a : Str) (fuel : Nat) (b acc : Str), (∀ x ∈ a, x ≠ backtick) → a.length + 1 ≤ fuel →
      splitOnFuel (backtick :: tl) fuel (a ++ ((backtick :: tl) ++ b)) acc =
        (acc.reverse ++ a) :: splitOnFuel (backtick :: tl) (fuel - (a.length + 1)) b [] := by
  intro a
  induction a with
  | nil =>
    intro fuel b acc _ hfuel
    cases fuel with
    | zero => omega
    | succ n =>
      have hsw : startsWith (backtick :: tl) (backtick :: (tl ++ b)) = true :=
        startsWith_append_self (backtick :: tl) b
      have hstep := splitOnFuel_cons_true (backtick :: tl) n backtick (tl ++ b) acc hsw
      have hdrop : List.drop (backtick :: tl).length (backtick :: (tl ++ b)) = b :=
        drop_len_append (backtick :: tl) b
      show splitOnFuel (backtick :: tl) (n + 1) (backtick :: (tl ++ b)) acc
        = (acc.reverse ++ []) :: splitOnFuel (backtick :: tl) (n + 1 - ([].length + 1)) b []
      rw [hstep, hdrop]
      simp
  | cons x a' ih =>
    intro fuel b acc ha hfuel
    cases fuel with
    | zero => simp at hfuel
    | succ n =>
      have hx : x ≠ backtick := ha x (List.mem_cons_self x a')
      have hsw : startsWith (backtick :: tl) (x :: (a' ++ ((backtick :: tl) ++ b))) = false :=
        startsWith_cons_of_ne backtick x tl (a' ++ ((backtick :: tl) ++ b)) (Ne.symm hx)
      have hfuel' : a'.length + 1 ≤ n := by simp at hfuel; omega
      have hrec := ih n b (x :: acc) (fun y hy => ha y (List.mem_cons_of_mem x hy)) hfuel'
      calc splitOnFuel (backtick :: tl) (n + 1) ((x :: a') ++ ((backtick :: tl) ++ b)) acc
      _ = splitOnFuel (backtick :: tl) n (a' ++ ((backtick :: tl) ++ b)) (x :: acc) :=
        splitOnFuel_cons_false (backtick :: tl) n x (a' ++ ((backtick :: tl) ++ b)) acc hsw
      _ = ((x :: acc).reverse ++ a') :: splitOnFuel (backtick :: tl) (n - (a'.length + 1)) b [] := hrec
      _ = (acc.reverse ++ (x :: a')) :: splitOnFuel (backtick :: tl) (n + 1 - ((x :: a').length + 1)) b [] := by
        have hlen : n + 1 - ((x :: a').length + 1) = n - (a'.length + 1) := by
          simp [List.length_cons]
        rw [hlen]
        simp

theorem lookupReg_insertReg_self (r : Registry) (k : Option String) (v : TaskStatus) :
    lookupReg (insertReg r k v) k = some v := by
  induction r with
  | nil => simp [insertReg, lookupReg]
  | cons p rest ih =>
    obtain ⟨k', v'⟩ := p
    by_cases h : (k' == k) = true
    · simp [insertReg, lookupReg, h]
    · simp only [Bool.not_eq_true] at h
      simp [insertReg, lookupReg, h, ih]

theorem ltrim_eq_self_of_head (t : Str) (h : ∀ x ∈ t.head?, x.isWhitespace = false) :
    ltrim t = t := by
  cases t with
  | nil => rfl
  | cons a s => exact ltrim_cons_no_ws a s (h a rfl)

theorem rtrim_eq_self_of_last (t : Str) (h : ∀ x ∈ t.reverse.head?, x.isWhitespace = false) :
    rtrim t = t := by
  rw [rtrim, ltrim_eq_self_of_head t.reverse h, List.reverse_reverse]

theorem strip_eq_self (t : Str) (hh : ∀ x ∈ t.head?, x.isWhitespace = false)
    (hl : ∀ x ∈ t.reverse.head?, x.isWhitespace = false) : strip t = t := by
  rw [strip, rtrim_eq_self_of_last t hl, ltrim_eq_self_of_head t hh]

theorem splitOnFuel_scan_end (tl a : Str) (fuel : Nat) (acc : Str)
    (ha : ∀ x ∈ a, x ≠ backtick) (hfuel : a.length + 1 ≤ fuel) :
    splitOnFuel (backtick :: tl) fuel (a ++ (backtick :: tl)) acc =
      (acc.reverse ++ a) :: [[]] := by
  have h := splitOnFuel_scan tl a fuel [] acc ha hfuel
  rw [List.append_nil, splitOnFuel_nil] at h
  simpa using h

theorem splitOn_no_occ (sep xs : Str) (h : containsSub sep xs = false) : splitOn sep xs = [xs] := by
  rw [splitOn, splitOnFuel_no_occ sep (xs.length + 1) xs [] h]
  simp

theorem splitOn_html_wrapped (c : Str) (hc : ∀ x ∈ c, x ≠ backtick) :
    splitOn fenceHtml (fenceHtml ++ (c ++ fence)) = [[], c ++ fence] := by
  have hrest : containsSub (backtick :: "``html".data) (c ++ fence) = false := by
    rw [containsSub_free ("``html".data) c fence hc]
    decide
  rw [splitOn, fenceHtml_cons]
  cases hf : ((backtick :: "``html".data) ++ (c ++ fence)).length + 1 with
  | zero => exact absurd hf (by simp)
  | succ n =>
    have e1 : splitOnFuel (backtick :: "``html".data) (n + 1)
        ((backtick :: "``html".data) ++ (c ++ fence)) [] =
        List.reverse [] :: splitOnFuel (backtick :: "``html".data) n
          (List.drop (backtick :: "``html".data).length
            ((backtick :: "``html".data) ++ (c ++ fence))) [] :=
      splitOnFuel_cons_true (backtick :: "``html".data) n backtick
        ("``html".data ++ (c ++ fence)) []
        (startsWith_append_self (backtick :: "``html".data) (c ++ fence))
    have e2 : List.drop (backtick :: "``html".data).length
        ((backtick :: "``html".data) ++ (c ++ fence)) = c ++ fence :=
      drop_len_append (backtick :: "``html".data) (c ++ fence)
    rw [e1, e2, splitOnFuel_no_occ (backtick :: "``html".data) n (c ++ fence) [] hrest]
    simp

theorem splitOn_fence_inner (c : Str) (hc : ∀ x ∈ c, x ≠ backtick) :
    splitOn fence (c ++ fence) = [c, []] := by
  rw [splitOn, fence_cons]
  have h := splitOnFuel_scan_end ("``".data) c ((c ++ (backtick :: "``".data)).length + 1) [] hc
    (by simp only [List.length_append, List.length_cons]; omega)
  rw [h]
  simp

theorem splitOn_fence_wrapped (c : Str) (hc : ∀ x ∈ c, x ≠ backtick) :
    splitOn fence (fence ++ (c ++ fence)) = [[], c, []] := by
  rw [splitOn, fence_cons]
  cases hf : ((backtick :: "``".data) ++ (c ++ (backtick :: "``".data))).length + 1 with
  | zero => exact absurd hf (by simp)
  | succ n =>
    have hn : c.length + 1 ≤ n := by
      have : ((backtick :: "``".data) ++ (c ++ (backtick :: "``".data))).length + 1 = n + 1 := hf
      simp only [List.length_append, List.length_cons] at this
      omega
    have e1 : splitOnFuel (backtick :: "``".data) (n + 1)
        ((backtick :: "``".data) ++ (c ++ (backtick :: "``".data))) [] =
        List.reverse [] :: splitOnFuel (backtick :: "``".data) n
          (List.drop (backtick :: "``".data).length
            ((backtick :: "``".data) ++ (c ++ (backtick :: "``".data)))) [] :=
      splitOnFuel_cons_true (backtick :: "``".data) n backtick
        ("``".data ++ (c ++ (backtick :: "``".data))) []
        (startsWith_append_self (backtick :: "``".data) (c ++ (backtick :: "``".data)))
    have e2 : List.drop (backtick :: "``".data).length
        ((backtick :: "``".data) ++ (c ++ (backtick :: "``".data))) =
        c ++ (backtick :: "``".data) :=
      drop_len_append (backtick :: "``".data) (c ++ (backtick :: "``".data))
    rw [e1, e2, splitOnFuel_scan_end ("``".data) c n [] hc hn]
    simp

theorem clean_html_fenced (c : Str) (hc : ∀ x ∈ c, x ≠ backtick) :
    cleanup_markdown (strip (fenceHtml ++ (c ++ fence))) = strip c := by
  have hstrip : strip (fenceHtml ++ (c ++ fence)) = fenceHtml ++ (c ++ fence) := by
    apply strip_eq_self
    · intro x hx
      have hx' : (fenceHtml ++ (c ++ fence)).head? = some backtick := rfl
      rw [hx'] at hx
      have hxe : backtick = x := by simpa using hx
      rw [← hxe]; decide
    · intro x hx
      have hx' : (fenceHtml ++ (c ++ fence)).reverse.head? = some backtick := by
        rw [List.reverse_append, List.reverse_append]
        rfl
      rw [hx'] at hx
      have hxe : backtick = x := by simpa using hx
      rw [← hxe]; decide
  rw [hstrip]
  have hsw : startsWith fenceHtml (fenceHtml ++ (c ++ fence)) = true :=
    startsWith_append_self fenceHtml (c ++ fence)
  have h1 := splitOn_html_wrapped c hc
  have h2 := splitOn_fence_inner c hc
  simp [cleanup_markdown, hsw, h1, h2, pyGet]

theorem clean_plain_fenced (c : Str) (hc : ∀ x ∈ c, x ≠ backtick)
    (hh : startsWith ("html".data) (c ++ fence) = false) :
    cleanup_markdown (strip (fence ++ (c ++ fence))) = strip c := by
  have hstrip : strip (fence ++ (c ++ fence)) = fence ++ (c ++ fence) := by
    apply strip_eq_self
    · intro x hx
      have hx' : (fence ++ (c ++ fence)).head? = some backtick := rfl
      rw [hx'] at hx
      have hxe : backtick = x := by simpa using hx
      rw [← hxe]; decide
    · intro x hx
      have hx' : (fence ++ (c ++ fence)).reverse.head? = some backtick := by
        rw [List.reverse_append, List.reverse_append]
        rfl
      rw [hx'] at hx
      have hxe : backtick = x := by simpa using hx
      rw [← hxe]; decide
  rw [hstrip]
  have hsw1 : startsWith fenceHtml (fence ++ (c ++ fence)) = false := by
    rw [fenceHtml_split, startsWith_append_both]
    exact hh
  have hsw2 : startsWith fence (fence ++ (c ++ fence)) = true :=
    startsWith_append_self fence (c ++ fence)
  have h1 := splitOn_fence_wrapped c hc
  have h2 : splitOn fence c = [c] := by
    apply splitOn_no_occ
    have h3 := containsSub_free ("``".data) c [] hc
    rw [List.append_nil] at h3
    rw [fence_cons, h3]
    decide
  simp [cleanup_markdown, hsw1, hsw2, h1, h2, pyGet]

theorem clean_no_fence (t : Str) (ht : containsSub fence t = false) :
    cleanup_markdown (strip t) = strip t := by
  have h1 : containsSub fence (strip t) = false := containsSub_strip fence t ht
  have h2 : startsWith fence (strip t) = false := by
    cases hs : startsWith fence (strip t) with
    | false => rfl
    | true => rw [containsSub_of_startsWith fence (strip t) hs] at h1; cases h1
  have h3 : startsWith fenceHtml (strip t) = false := by
    cases hs : startsWith fenceHtml (strip t) with
    | false => rfl
    | true =>
      rw [fenceHtml_split] at hs
      have h4 := startsWith_append_cancel fence ("html".data) (strip t) hs
      rw [h4] at h2; cases h2
  simp [cleanup_markdown, h2, h3]

/-! ## Concrete environments used by the witnesses -/

/-- A GitHub oracle where every call succeeds. -/
def ghOk : GithubEnv :=
  ⟨Except.ok (), Except.ok (), Except.ok (), Except.ok "sha1", Except.ok "sha2",
   Except.ok "sha3", Except.ok (), Except.ok (), Except.ok (), Except.ok (), Except.ok (),
   Except.ok (), Except.ok (), Except.ok "headsha", "https://github.com/user/t1"⟩

/-- Like `ghOk` but authentication (`get_user`) fails. -/
def ghAuthFail : GithubEnv := { ghOk with get_user := Except.error "bad credentials" }

/-- Like `ghOk` but the repository neither exists nor can be created. -/
def ghNameConflict : GithubEnv :=
  { ghOk with get_repo := Except.error "404 not found",
              create_repo := Except.error "name already exists" }

/-- Like `ghOk` but updating README.md fails mid-way through the update
path and the create-file fallback fails too (the files already exist). -/
def ghPushBroken : GithubEnv :=
  { ghOk with update_readme := Except.error "422 write failed",
              create_index := Except.error "file already exists" }

/-- A fully-populated request body. -/
def dataFull : ReqData :=
  ⟨some "e@x", some "s", some "t1", some 1, some "n1", some "b", some ["c1"], some [],
   some "http://cb"⟩

/-! ## The claims -/

/-- Claim C1.  The claim states that the registry's check-and-set to
`processing` (the membership test on `processed_tasks` at line 279
followed by the write at line 295) succeeds at most once per key across
concurrent submissions.  The code has no lock between the two steps, so
the interleaving in which both request threads run the membership test
before either runs the write makes the check-and-set succeed **twice**:
both threads mark the task processing and both spawn a pipeline thread
(`spawns = 2`). -/
theorem C1_race_double_spawn :
    raceRun (some "t1") ⟨[], 0, 0, 0⟩ [true, false, true, false] =
      ⟨[(some "t1", TaskStatus.processing)], 2, 2, 2⟩ := by decide

/-- Claim C2, counterexample.  `failed` is supposed to be terminal, but
resubmitting a task whose registry entry is `failed` falls through both
registry branches of `deploy`: the entry is overwritten with
`processing` and a fresh background pipeline is spawned. -/
theorem C2_failed_resubmission_counterexample :
    deploy (some "s") [(some "t1", TaskStatus.failed "boom")]
        ⟨none, some "s", some "t1", none, none, none, none, none, none⟩ =
      ⟨Resp.accepted (some "t1"), [(some "t1", TaskStatus.processing)],
       some ⟨none, some "s", some "t1", none, none, none, none, none, none⟩⟩ := by decide

/-- Claim C2, amended: only `completed` behaves as a stable terminal
state under resubmission — `deploy` answers it from the registry,
leaves the registry unchanged and spawns nothing (so the generator and
publisher are not re-invoked).  A `failed` entry, by contrast, is
overwritten with `processing` and a new pipeline is started. -/
theorem C2_terminal_resubmission (SECRET : Option String) (tasks : Registry) (data : ReqData)
    (tid r p e : String) (hsec : verify_secret SECRET data.secret = true)
    (htask : data.task = some tid) :
    (lookupReg tasks (some tid) = some (TaskStatus.completed r p) →
      deploy SECRET tasks data = ⟨Resp.alreadyCompleted r p, tasks, none⟩)
    ∧ (lookupReg tasks (some tid) = some (TaskStatus.failed e) →
      deploy SECRET tasks data =
        ⟨Resp.accepted (some tid), insertReg tasks (some tid) TaskStatus.processing, some data⟩) := by
  constructor
  · intro hl
    simp [deploy, hsec, htask, hl]
  · intro hl
    simp [deploy, hsec, htask, hl]

/-- Witness for C2: both branches of `C2_terminal_resubmission`
evaluated at concrete registries. -/
theorem C2_terminal_resubmission_witness :
    (deploy (some "s") [(some "t1", TaskStatus.completed "R" "P")]
        ⟨none, some "s", some "t1", none, none, none, none, none, none⟩ =
      ⟨Resp.alreadyCompleted "R" "P", [(some "t1", TaskStatus.completed "R" "P")], none⟩)
    ∧ (deploy (some "s") [(some "t2", TaskStatus.failed "boom")]
        ⟨none, some "s", some "t2", none, none, none, none, none, none⟩ =
      ⟨Resp.accepted (some "t2"), [(some "t2", TaskStatus.processing)],
       some ⟨none, some "s", some "t2", none, none, none, none, none, none⟩⟩) :=
  ⟨(C2_terminal_resubmission (some "s") [(some "t1", TaskStatus.completed "R" "P")]
      ⟨none, some "s", some "t1", none, none, none, none, none, none⟩
      "t1" "R" "P" "x" (by decide) (by decide)).1 (by decide),
   (C2_terminal_resubmission (some "s") [(some "t2", TaskStatus.failed "boom")]
      ⟨none, some "s", some "t2", none, none, none, none, none, none⟩
      "t2" "R" "P" "boom" (by decide) (by decide)).2 (by decide)⟩

/-- Claim C3, counterexample.  Against a target that always answers a
non-200 status, the delays the code actually sleeps are 2, 4 and 8
seconds (`2 ** attempt` with the sleep skipped at attempt 0), not the
1, 2, 4 sequence the claim derives from `base_delay * 2^(i-1)` with
`base_delay = 1`. -/
theorem C3_delay_counterexample :
    sleepsOf (submit_to_evaluation (fun _ => PostOutcome.status 500) "http://cb" "t1" "n1"
        ⟨"R", "P", "S"⟩).events = [2, 4, 8]
    ∧ [2, 4, 8] ≠ ([1, 2, 4] : List Nat) := by decide

/-- Claim C3, amended: against a target that always returns a non-200
status, the client performs exactly 4 POST attempts, sleeps between
attempts but never after the last, the sleep before attempt `i`
(zero-based, `i ≥ 1`) lasting `2 ^ i` seconds (so the delays are
2, 4, 8), and then returns failure. -/
theorem C3_retry_until_failure (respond : Nat → PostOutcome) (url tid nonce : String)
    (rd : RepoData)
    (h : ∀ i, ∃ code, respond i = PostOutcome.status code ∧ (code == 200) = false) :
    (submit_to_evaluation respond url tid nonce rd).events =
      [DEvent.post 0, DEvent.sleepFor 2, DEvent.post 1, DEvent.sleepFor 4, DEvent.post 2,
       DEvent.sleepFor 8, DEvent.post 3]
    ∧ (submit_to_evaluation respond url tid nonce rd).result = false := by
  obtain ⟨c0, h0, n0⟩ := h 0
  obtain ⟨c1, h1, n1⟩ := h 1
  obtain ⟨c2, h2, n2⟩ := h 2
  obtain ⟨c3, h3, n3⟩ := h 3
  constructor <;>
    simp [submit_to_evaluation, submit_attempts, h0, h1, h2, h3, n0, n1, n2, n3]

/-- Witness for C3 at the constant-500 responder. -/
theorem C3_retry_until_failure_witness :
    (submit_to_evaluation (fun _ => PostOutcome.status 500) "http://cb" "t1" "n1"
        ⟨"R", "P", "S"⟩).events =
      [DEvent.post 0, DEvent.sleepFor 2, DEvent.post 1, DEvent.sleepFor 4, DEvent.post 2,
       DEvent.sleepFor 8, DEvent.post 3]
    ∧ (submit_to_evaluation (fun _ => PostOutcome.status 500) "http://cb" "t1" "n1"
        ⟨"R", "P", "S"⟩).result = false :=
  C3_retry_until_failure (fun _ => PostOutcome.status 500) "http://cb" "t1" "n1"
    ⟨"R", "P", "S"⟩ (fun _ => ⟨500, rfl, rfl⟩)

/-- Claim C4: once the pipeline has bound `task_id`, an exception from
the generator skips publish, delivery and the completed-write and ends
with the registry entry `{'status': 'failed', 'error': str(e)}`; an
exception from the publisher likewise skips delivery and the
completed-write and records the publisher's message. -/
theorem C4_pipeline_exception_sets_failed (env : PipelineEnv) (tasks : Registry)
    (data : ReqData) (tid brief : String) (checks : List String)
    (eurl nonce e e2 : String) (code : Str)
    (h1 : data.task = some tid) (h2 : data.brief = some brief)
    (h3 : data.checks = some checks) (h4 : data.evaluation_url = some eurl)
    (h5 : data.nonce = some nonce) :
    (generate_code_with_llm env.llm brief checks (data.attachments.getD []) = Except.error e →
      process_task_background env tasks data =
        (insertReg tasks (some tid) (TaskStatus.failed e), POutcome.finished,
         [PEvent.generateCall, PEvent.writeFailed]))
    ∧ (generate_code_with_llm env.llm brief checks (data.attachments.getD []) = Except.ok code →
      create_github_repo env.github env.GITHUB_USERNAME tid code brief = Except.error e2 →
      process_task_background env tasks data =
        (insertReg tasks (some tid) (TaskStatus.failed e2), POutcome.finished,
         [PEvent.generateCall, PEvent.publishCall, PEvent.writeFailed])) := by
  constructor
  · intro hg
    simp [process_task_background, h1, h2, h3, h4, h5, hg]
  · intro hg hp
    simp [process_task_background, h1, h2, h3, h4, h5, hg, hp]

/-- Witness for C4: a failing generator and a failing publisher, each
ending in the corresponding `failed` registry entry. -/
theorem C4_pipeline_exception_witness :
    (process_task_background ⟨Except.error "llm down", ghOk, fun _ => PostOutcome.status 200, "user"⟩
        [] dataFull =
      ([(some "t1", TaskStatus.failed "llm down")], POutcome.finished,
       [PEvent.generateCall, PEvent.writeFailed]))
    ∧ (process_task_background ⟨Except.ok "<h1>hi</h1>".data, ghAuthFail,
        fun _ => PostOutcome.status 200, "user"⟩ [] dataFull =
      ([(some "t1", TaskStatus.failed "Repository creation failed: bad credentials")],
       POutcome.finished,
       [PEvent.generateCall, PEvent.publishCall, PEvent.writeFailed])) :=
  ⟨(C4_pipeline_exception_sets_failed
      ⟨Except.error "llm down", ghOk, fun _ => PostOutcome.status 200, "user"⟩ [] dataFull
      "t1" "b" ["c1"] "http://cb" "n1" "llm down" "x" "<h1>hi</h1>".data
      rfl rfl rfl rfl rfl).1 (by decide),
   (C4_pipeline_exception_sets_failed
      ⟨Except.ok "<h1>hi</h1>".data, ghAuthFail, fun _ => PostOutcome.status 200, "user"⟩ [] dataFull
      "t1" "b" ["c1"] "http://cb" "n1" "x" "Repository creation failed: bad credentials"
      "<h1>hi</h1>".data rfl rfl rfl rfl rfl).2 (by decide) (by decide)⟩

/-- Claim C5: a submission whose secret differs from the configured one
gets the 401 `Invalid secret` response, the registry is untouched and no
background thread starts, whatever the rest of the payload looks like. -/
theorem C5_invalid_secret (SECRET : Option String) (tasks : Registry) (data : ReqData)
    (h : data.secret ≠ SECRET) :
    deploy SECRET tasks data = ⟨Resp.invalidSecret, tasks, none⟩ := by
  have hb : verify_secret SECRET data.secret = false := by
    rw [verify_secret]
    exact beq_eq_false_iff_ne.mpr h
  simp [deploy, hb]

/-- Witness for C5 at a concrete wrong secret. -/
theorem C5_invalid_secret_witness :
    deploy (some "manifest-2025") [(some "t0", TaskStatus.processing)]
        ⟨some "a@b", some "wrong", some "t9", some 1, some "n", some "b", some [], some [],
         some "u"⟩ =
      ⟨Resp.invalidSecret, [(some "t0", TaskStatus.processing)], none⟩ :=
  C5_invalid_secret (some "manifest-2025") [(some "t0", TaskStatus.processing)]
    ⟨some "a@b", some "wrong", some "t9", some 1, some "n", some "b", some [], some [],
     some "u"⟩ (by decide)

/-- Claim C6, counterexample.  A write failure while pushing the three
files is *not* raised to the caller: with the update path failing on
README.md and the create-file fallback failing too, the whole push block
is swallowed and `create_github_repo` still returns a successful
result. -/
theorem C6_push_failure_swallowed :
    update_path ghPushBroken = Except.error "422 write failed"
    ∧ create_path ghPushBroken = Except.error "file already exists"
    ∧ create_github_repo ghPushBroken "user" "t1" "<h1>hi</h1>".data "b" =
        Except.ok ⟨"https://github.com/user/t1", "https://user.github.io/t1/", "headsha"⟩ := by
  decide

/-- Claim C6, amended: `create_github_repo` fails (with the message
prefixed `Repository creation failed: `) on authentication failure and
on an unresolvable naming conflict, and it also fails when listing
commits fails at the end; but failures while pushing `index.html`,
`README.md` or `LICENSE` are swallowed (only logged), so with
authentication, repository lookup and the final commit listing
succeeding the call returns a successful result regardless of the file
write outcomes. -/
theorem C6_publish_error_policy (env : GithubEnv) (user name brief : String) (code : Str)
    (e e2 sha : String) :
    (env.get_user = Except.error e →
      create_github_repo env user name code brief =
        Except.error ("Repository creation failed: " ++ e))
    ∧ (env.get_user = Except.ok () → env.get_repo = Except.error e →
      env.create_repo = Except.error e2 →
      create_github_repo env user name code brief =
        Except.error ("Repository creation failed: " ++ e2))
    ∧ (env.get_user = Except.ok () → env.get_repo = Except.ok () →
      env.get_commits_head = Except.ok sha →
      create_github_repo env user name code brief =
        Except.ok ⟨env.html_url, "https://" ++ user ++ ".github.io/" ++ name ++ "/", sha⟩) := by
  refine ⟨?_, ?_, ?_⟩
  · intro hu
    simp [create_github_repo, hu]
  · intro hu hr hc
    simp [create_github_repo, repo_step, hu, hr, hc]
  · intro hu hr hs
    simp [create_github_repo, repo_step, hu, hr, hs]

/-- Witness for C6: all three branches at concrete environments
(`ghPushBroken` has failing file writes yet the call succeeds). -/
theorem C6_publish_error_policy_witness :
    (create_github_repo ghAuthFail "user" "t1" "<h1>hi</h1>".data "b" =
      Except.error ("Repository creation failed: " ++ "bad credentials"))
    ∧ (create_github_repo ghNameConflict "user" "t1" "<h1>hi</h1>".data "b" =
      Except.error ("Repository creation failed: " ++ "name already exists"))
    ∧ (create_github_repo ghPushBroken "user" "t1" "<h1>hi</h1>".data "b" =
      Except.ok ⟨ghPushBroken.html_url, "https://" ++ "user" ++ ".github.io/" ++ "t1" ++ "/",
                 "headsha"⟩) :=
  ⟨(C6_publish_error_policy ghAuthFail "user" "t1" "b" "<h1>hi</h1>".data
      "bad credentials" "x" "headsha").1 (by decide),
   (C6_publish_error_policy ghNameConflict "user" "t1" "b" "<h1>hi</h1>".data
      "404 not found" "name already exists" "headsha").2.1 (by decide) (by decide) (by decide),
   (C6_publish_error_policy ghPushBroken "user" "t1" "b" "<h1>hi</h1>".data
      "x" "y" "headsha").2.2 (by decide) (by decide) (by decide)⟩

/-- Claim C7, counterexample.  The claim keys the stripping on the text
*containing* a fence wrapper, but the code checks `startswith`: a reply
that contains an html fence yet does not start with one is passed
through unchanged instead of being reduced to the first fenced block
(`hi`). -/
theorem C7_contains_counterexample :
    containsSub fenceHtml ("x ```html hi ```".data) = true
    ∧ generate_code_with_llm (Except.ok ("x ```html hi ```".data)) "" [] []
        = Except.ok ("x ```html hi ```".data)
    ∧ ("x ```html hi ```".data : Str) ≠ "hi".data := by decide

/-- Claim C7, amended: if the trimmed reply *starts with* a fence
(either variant), the adapter returns the content of the first fenced
block with the fences stripped and surrounding whitespace trimmed; if no
fence occurs anywhere in the reply, the text passes through unchanged
except for whitespace trimming. -/
theorem C7_fence_handling (c t : Str) (brief : String) (checks attachments : List String)
    (hc : ∀ x ∈ c, x ≠ backtick)
    (hh : startsWith ("html".data) (c ++ fence) = false)
    (ht : containsSub fence t = false) :
    generate_code_with_llm (Except.ok (fenceHtml ++ (c ++ fence))) brief checks attachments
      = Except.ok (strip c)
    ∧ generate_code_with_llm (Except.ok (fence ++ (c ++ fence))) brief checks attachments
      = Except.ok (strip c)
    ∧ generate_code_with_llm (Except.ok t) brief checks attachments = Except.ok (strip t) := by
  refine ⟨?_, ?_, ?_⟩
  · show Except.ok (cleanup_markdown (strip (fenceHtml ++ (c ++ fence)))) = _
    rw [clean_html_fenced c hc]
  · show Except.ok (cleanup_markdown (strip (fence ++ (c ++ fence)))) = _
    rw [clean_plain_fenced c hc hh]
  · show Except.ok (cleanup_markdown (strip t)) = _
    rw [clean_no_fence t ht]

/-- Witness for C7: a fenced html reply, a plainly fenced reply, and a
fence-free reply. -/
theorem C7_fence_handling_witness :
    generate_code_with_llm (Except.ok (fenceHtml ++ (" <p>hi</p> ".data ++ fence))) "" [] []
      = Except.ok (strip " <p>hi</p> ".data)
    ∧ generate_code_with_llm (Except.ok (fence ++ (" <p>hi</p> ".data ++ fence))) "" [] []
      = Except.ok (strip " <p>hi</p> ".data)
    ∧ generate_code_with_llm (Except.ok ("plain text".data)) "" [] []
      = Except.ok (strip "plain text".data) :=
  C7_fence_handling " <p>hi</p> ".data "plain text".data "" [] []
    (by decide) (by decide) (by decide)

/-- Claim C8: when generation and publish both succeed the task's
terminal registry entry is `completed` with the publish result, for
*every* behaviour of the evaluation endpoint, and the delivery attempts
all happen before the terminal write (the trace ends with
`writeCompleted`). -/
theorem C8_completed_independent_of_delivery (env : PipelineEnv) (tasks : Registry)
    (data : ReqData) (tid brief : String) (checks : List String) (eurl nonce : String)
    (code : Str) (rd : RepoData)
    (h1 : data.task = some tid) (h2 : data.brief = some brief)
    (h3 : data.checks = some checks) (h4 : data.evaluation_url = some eurl)
    (h5 : data.nonce = some nonce)
    (hg : generate_code_with_llm env.llm brief checks (data.attachments.getD []) = Except.ok code)
    (hp : create_github_repo env.github env.GITHUB_USERNAME tid code brief = Except.ok rd) :
    process_task_background env tasks data =
      (insertReg tasks (some tid) (TaskStatus.completed rd.repo_url rd.pages_url),
       POutcome.finished,
       [PEvent.generateCall, PEvent.publishCall]
         ++ (submit_to_evaluation env.deliverRespond eurl tid nonce rd).events.map PEvent.deliver
         ++ [PEvent.writeCompleted]) := by
  simp [process_task_background, h1, h2, h3, h4, h5, hg, hp]

/-- Witness for C8 with an evaluation endpoint that always fails: the
task still completes, after the four delivery attempts. -/
theorem C8_completed_witness :
    process_task_background ⟨Except.ok "<h1>hi</h1>".data, ghOk,
        fun _ => PostOutcome.status 500, "user"⟩ [] dataFull =
      ([(some "t1", TaskStatus.completed "https://github.com/user/t1"
          "https://user.github.io/t1/")],
       POutcome.finished,
       [PEvent.generateCall, PEvent.publishCall]
         ++ (submit_to_evaluation (fun _ => PostOutcome.status 500) "http://cb" "t1" "n1"
              ⟨"https://github.com/user/t1", "https://user.github.io/t1/", "headsha"⟩).events.map
             PEvent.deliver
         ++ [PEvent.writeCompleted]) :=
  C8_completed_independent_of_delivery
    ⟨Except.ok "<h1>hi</h1>".data, ghOk, fun _ => PostOutcome.status 500, "user"⟩ [] dataFull
    "t1" "b" ["c1"] "http://cb" "n1" "<h1>hi</h1>".data
    ⟨"https://github.com/user/t1", "https://user.github.io/t1/", "headsha"⟩
    rfl rfl rfl rfl rfl (by decide) (by decide)

/-- Claim C9: with no configured secret (`SECRET = None`), a submission
that omits the secret field passes `verify_secret` (`None == None`) and
is accepted (for a fresh task id), not rejected with the 401 error. -/
theorem C9_unset_secret_accepts (tasks : Registry) (data : ReqData)
    (hs : data.secret = none) (hnew : lookupReg tasks data.task = none) :
    verify_secret none data.secret = true
    ∧ deploy none tasks data =
        ⟨Resp.accepted data.task, insertReg tasks data.task TaskStatus.processing, some data⟩ := by
  have hv : verify_secret none data.secret = true := by rw [hs]; rfl
  refine ⟨hv, ?_⟩
  simp [deploy, hv, hnew]

/-- Witness for C9: empty registry, request with no secret field. -/
theorem C9_unset_secret_witness :
    verify_secret none (ReqData.secret ⟨none, none, some "t1", none, some "n", some "b",
        some [], some [], some "u"⟩) = true
    ∧ deploy none []
        ⟨none, none, some "t1", none, some "n", some "b", some [], some [], some "u"⟩ =
      ⟨Resp.accepted (some "t1"), [(some "t1", TaskStatus.processing)],
       some ⟨none, none, some "t1", none, some "n", some "b", some [], some [], some "u"⟩⟩ :=
  C9_unset_secret_accepts []
    ⟨none, none, some "t1", none, some "n", some "b", some [], some [], some "u"⟩ rfl rfl

/-- Claim C10: a body without a `task` key is accepted (the registry
entry at key `None` is set to processing and a thread spawns), the
background pipeline's `task_data['task']` raises `KeyError` before
`task_id` is bound, the `except` handler then dies on the unbound
`task_id`, and the `None` entry stays `processing` forever. -/
theorem C10_missing_task_key (SECRET : Option String) (tasks : Registry) (data : ReqData)
    (env : PipelineEnv) (hsec : verify_secret SECRET data.secret = true)
    (htask : data.task = none) (hnew : lookupReg tasks none = none) :
    (deploy SECRET tasks data).spawned = some data
    ∧ lookupReg (deploy SECRET tasks data).tasks none = some TaskStatus.processing
    ∧ process_task_background env (deploy SECRET tasks data).tasks data =
        ((deploy SECRET tasks data).tasks, POutcome.crashed, [])
    ∧ lookupReg (process_task_background env (deploy SECRET tasks data).tasks data).1 none
        = some TaskStatus.processing := by
  have hd : deploy SECRET tasks data =
      ⟨Resp.accepted none, insertReg tasks none TaskStatus.processing, some data⟩ := by
    rw [← htask]
    simp [deploy, hsec, htask, hnew]
  rw [hd]
  refine ⟨rfl, lookupReg_insertReg_self tasks none TaskStatus.processing, ?_, ?_⟩
  · simp [process_task_background, htask]
  · simp [process_task_background, htask]
    exact lookupReg_insertReg_self tasks none TaskStatus.processing

/-- Witness for C10 at a concrete secretless deployment with no `task`
field. -/
theorem C10_missing_task_key_witness :
    (deploy (some "s") []
        ⟨none, some "s", none, none, some "n", some "b", some [], some [], some "u"⟩).spawned =
      some ⟨none, some "s", none, none, some "n", some "b", some [], some [], some "u"⟩
    ∧ lookupReg (deploy (some "s") []
        ⟨none, some "s", none, none, some "n", some "b", some [], some [], some "u"⟩).tasks none =
      some TaskStatus.processing
    ∧ process_task_background ⟨Except.ok "<h1>hi</h1>".data, ghOk,
        fun _ => PostOutcome.status 200, "user"⟩
        (deploy (some "s") []
          ⟨none, some "s", none, none, some "n", some "b", some [], some [], some "u"⟩).tasks
        ⟨none, some "s", none, none, some "n", some "b", some [], some [], some "u"⟩ =
      ((deploy (some "s") []
          ⟨none, some "s", none, none, some "n", some "b", some [], some [], some "u"⟩).tasks,
       POutcome.crashed, [])
    ∧ lookupReg (process_task_background ⟨Except.ok "<h1>hi</h1>".data, ghOk,
        fun _ => PostOutcome.status 200, "user"⟩
        (deploy (some "s") []
          ⟨none, some "s", none, none, some "n", some "b", some [], some [], some "u"⟩).tasks
        ⟨none, some "s", none, none, some "n", some "b", some [], some [], some "u"⟩).1 none =
      some TaskStatus.processing :=
  C10_missing_task_key (some "s") []
    ⟨none, some "s", none, none, some "n", some "b", some [], some [], some "u"⟩
    ⟨Except.ok "<h1>hi</h1>".data, ghOk, fun _ => PostOutcome.status 200, "user"⟩
    rfl rfl rfl
